import Mathlib

/-!
Verification of the chained-chunk arena allocator in `src/arena.h`.

Shallow embedding conventions:

* A `Chunk` carries the scalar fields of the C `struct Arena`
  (`memory` is the numeric base address of the owned buffer; the
  function-pointer table and the `self` field are C plumbing with no
  semantic content and are omitted).
* The `next`/`head` links of the C struct realise a singly-linked chain
  rooted at the head chunk; the embedding represents a chain as a
  `List Chunk` in chain order (head first), and a chunk pointer as an
  index into that list.  All public call sites (`example.c`) invoke the
  operations through `arena->self`, the head, i.e. index `0`.
* `size_t` values are modelled as `Nat`.  The one place the source can
  reach unsigned wraparound with well-typed caller input is the
  `self->offset - old_size` subtraction in `arena_realloc`; there the
  embedding guards the subtraction explicitly (see the comment at
  `arena_realloc`).
* `malloc`/`realloc` may fail nondeterministically; each operation that
  reserves memory takes an explicit `memOk : Bool` oracle (reservation
  succeeds iff `true`) and a `base : Nat`, the address of the fresh
  buffer.  Fallible operations return `Option`/`Bool` results exactly
  where the C returns `NULL`/`false`.
* A pointer returned to the caller is a `View`: the index of the chunk
  it points into plus the byte offset inside that chunk's buffer.
  Distinct live `malloc` buffers occupy disjoint address ranges, so C
  pointer equality between views coincides with equality of these
  structured views.
-/

namespace ArenaModel

/-- One chunk of the chain: the scalar fields of the C `struct Arena`. -/
structure Chunk where
  memory : Nat
  size : Nat
  offset : Nat
  peak_usage : Nat
  allocation_count : Nat
  total_allocated : Nat
deriving DecidableEq

/-- A chain of chunks in chain order; the head chunk is the first element. -/
abbrev Chain := List Chunk

/-- A pointer handed out by the allocator: chunk index and byte offset
inside that chunk's buffer. -/
structure View where
  chunk : Nat
  off : Nat
deriving DecidableEq

/-- `align_forward` from the source.  The source computes
`ptr & (alignment - 1)`; it is only ever invoked after the
`is_power_of_two` guard, where the bit-mask equals `ptr % alignment`,
which is how the embedding writes it. -/
def align_forward (ptr alignment : Nat) : Nat :=
  if ptr % alignment ≠ 0 then ptr + (alignment - ptr % alignment) else ptr

/-- `is_power_of_two` from the source: `x != 0 && (x & (x - 1)) == 0`. -/
def is_power_of_two (x : Nat) : Bool :=
  (x != 0) && (x &&& (x - 1) == 0)

/-- A freshly `Arena_create`d chunk: all counters zero. -/
def mkChunk (base size : Nat) : Chunk :=
  ⟨base, size, 0, 0, 0, 0⟩

/-- `Arena_create`: fails on `size == 0` or when either underlying
reservation fails (`memOk = false`); otherwise yields the head chunk of
a new one-chunk chain with all counters zero. -/
def Arena_create (size : Nat) (memOk : Bool) (base : Nat) : Option Chunk :=
  if size = 0 then none
  else if memOk = false then none
  else some (mkChunk base size)

/-- The in-chunk bump path of `arena_alloc`: advance `offset`, bump
`allocation_count` and `total_allocated`, update `peak_usage`. -/
def chunkBump (ch : Chunk) (size : Nat) : Chunk :=
  { ch with
    offset := ch.offset + size
    allocation_count := ch.allocation_count + 1
    total_allocated := ch.total_allocated + size
    peak_usage := if ch.offset + size > ch.peak_usage then ch.offset + size else ch.peak_usage }

/-- The `new_arena_size` computation of `arena_alloc`'s growth branch:
`new_arena_size = self->size * 2; if (new_arena_size < size)
new_arena_size = size * 2;`. -/
def growSize (ch : Chunk) (size : Nat) : Nat :=
  if ch.size * 2 < size then size * 2 else ch.size * 2

/-- `arena_alloc(self, size)` on the chain `c` with `self` the chunk at
index `i`.  If the request fits in `self` the bump path runs; otherwise
a new chunk sized by the growth rule is linked at the end of the chain
(the `while (current->next)` walk from `self` reaches the chain's tail)
and the allocation is delegated to it.  The delegated call always takes
the in-chunk path, because `size ≤ growSize ch size` in both branches of
the sizing rule, so it is inlined as the bump on the fresh chunk. -/
def arena_alloc (c : Chain) (i : Nat) (size : Nat) (memOk : Bool) (base : Nat) :
    Option View × Chain :=
  if size = 0 then (none, c)
  else
    match c.get? i with
    | none => (none, c)
    | some ch =>
      if ch.offset + size ≤ ch.size then
        (some ⟨i, ch.offset⟩, c.set i (chunkBump ch size))
      else
        match Arena_create (growSize ch size) memOk base with
        | none => (none, c)
        | some new_chunk =>
          (some ⟨c.length, 0⟩, c ++ [chunkBump new_chunk size])

/-- The padding of `arena_alloc_aligned`: the gap from the chunk's
unaligned free-byte address `memory + offset` to the next
`alignment`-aligned address. -/
def chunkPadding (ch : Chunk) (alignment : Nat) : Nat :=
  align_forward (ch.memory + ch.offset) alignment - (ch.memory + ch.offset)

/-- The `new_arena_size` computation of `arena_alloc_aligned`'s growth
branch, sized from `required_size = size + alignment`. -/
def growSizeAligned (ch : Chunk) (size alignment : Nat) : Nat :=
  if ch.size * 2 < size + alignment then (size + alignment) * 2 else ch.size * 2

/-- `arena_alloc_aligned(self, size, alignment)`.  On growth the fresh
chunk is linked at the end of the chain and the aligned allocation is
delegated to it; the delegated call always takes the in-chunk path (its
padding is below `alignment` and the new capacity is at least
`size + alignment`), so it is inlined as the aligned bump on the fresh
chunk, whose padding is recomputed from its own base address. -/
def arena_alloc_aligned (c : Chain) (i : Nat) (size alignment : Nat)
    (memOk : Bool) (base : Nat) : Option View × Chain :=
  if size = 0 then (none, c)
  else if is_power_of_two alignment = false then (none, c)
  else
    match c.get? i with
    | none => (none, c)
    | some ch =>
      if ch.offset + chunkPadding ch alignment + size ≤ ch.size then
        (some ⟨i, ch.offset + chunkPadding ch alignment⟩,
         c.set i
          { ch with
            offset := ch.offset + chunkPadding ch alignment + size
            allocation_count := ch.allocation_count + 1
            total_allocated := ch.total_allocated + (size + chunkPadding ch alignment)
            peak_usage :=
              if ch.offset + chunkPadding ch alignment + size > ch.peak_usage then
                ch.offset + chunkPadding ch alignment + size
              else ch.peak_usage })
      else
        match Arena_create (growSizeAligned ch size alignment) memOk base with
        | none => (none, c)
        | some new_chunk =>
          (some ⟨c.length, chunkPadding new_chunk alignment⟩,
           c ++ [{ new_chunk with
                   offset := chunkPadding new_chunk alignment + size
                   allocation_count := 1
                   total_allocated := size + chunkPadding new_chunk alignment
                   peak_usage := chunkPadding new_chunk alignment + size }])

/-- The fall-through tail of `arena_realloc`: a fresh
`arena_alloc(self, new_size)` and, when it succeeds, a `memcpy` of
`min old_size new_size` bytes (the third component). -/
def reallocByCopy (c : Chain) (i old_size new_size : Nat) (memOk : Bool) (base : Nat) :
    Option View × Chain × Nat :=
  ((arena_alloc c i new_size memOk base).1,
   (arena_alloc c i new_size memOk base).2,
   if (arena_alloc c i new_size memOk base).1.isSome then min old_size new_size else 0)

/-- `arena_realloc(self, ptr, old_size, new_size)`.  The third result
component is the number of bytes `memcpy`d (0 on the in-place fast path
and on failure, `min old_size new_size` when a fresh allocation is
copied into).

The source's fast-path test compares `ptr` with
`memory + (self->offset - old_size)`.  That C pointer equality against a
view into arena-owned memory holds exactly when the view lies in `self`'s
buffer at offset `offset - old_size`; when `old_size > offset` the
`size_t` subtraction wraps and the computed address lies outside every
chunk's buffer, so no live view compares equal — hence the explicit
`old_size ≤ ch.offset` guard. -/
def arena_realloc (c : Chain) (i : Nat) (ptr : Option View) (old_size new_size : Nat)
    (memOk : Bool) (base : Nat) : Option View × Chain × Nat :=
  match ptr with
  | none =>
    ((arena_alloc c i new_size memOk base).1, (arena_alloc c i new_size memOk base).2, 0)
  | some p =>
    if new_size = 0 then (none, c, 0)
    else
      match c.get? i with
      | none => (none, c, 0)
      | some ch =>
        if old_size ≤ ch.offset ∧ p = ⟨i, ch.offset - old_size⟩ then
          if ch.offset - old_size + new_size ≤ ch.size then
            (some p,
             c.set i
              { ch with
                offset := ch.offset - old_size + new_size
                peak_usage :=
                  if ch.offset - old_size + new_size > ch.peak_usage then
                    ch.offset - old_size + new_size
                  else ch.peak_usage },
             0)
          else
            reallocByCopy c i old_size new_size memOk base
        else
          reallocByCopy c i old_size new_size memOk base

/-- `arena_reset`: walks the whole chain from the head zeroing `offset`
and `allocation_count` of every chunk. -/
def arena_reset (c : Chain) : Chain :=
  c.map fun ch => { ch with offset := 0, allocation_count := 0 }

/-- The chain walk of `arena_reset_to_mark`, carrying `cumulative_size`
and the `found` flag. -/
def resetToMarkGo (mark : Nat) : List Chunk → Nat → Bool → List Chunk
  | [], _, _ => []
  | ch :: rest, cumulative_size, found =>
    if found = false ∧ mark ≤ cumulative_size + ch.size then
      { ch with offset := mark - cumulative_size } ::
        resetToMarkGo mark rest (cumulative_size + ch.size) true
    else if found = true then
      { ch with offset := 0, allocation_count := 0 } ::
        resetToMarkGo mark rest (cumulative_size + ch.size) found
    else
      ch :: resetToMarkGo mark rest (cumulative_size + ch.size) found

/-- `arena_reset_to_mark(self, mark)`: the walk starts at `self->head`,
the chain's head, with `cumulative_size = 0` and `found = false`. -/
def arena_reset_to_mark (c : Chain) (mark : Nat) : Chain :=
  resetToMarkGo mark c 0 false

/-- The chain walk of `arena_get_mark`: accumulate `offset`s from the
head until the walk reaches `self` (index distance `i`); if `self` is
never met the loop falls out and the accumulated total is returned. -/
def getMarkGo : List Chunk → Nat → Nat → Nat
  | [], _, cumulative_offset => cumulative_offset
  | ch :: _, 0, cumulative_offset => cumulative_offset + ch.offset
  | ch :: rest, i + 1, cumulative_offset => getMarkGo rest i (cumulative_offset + ch.offset)

/-- `arena_get_mark(self)` with `self` the chunk at index `i` of the
chain: cursors of the chunks strictly before `self` plus `self`'s own. -/
def arena_get_mark (c : Chain) (i : Nat) : Nat :=
  getMarkGo c i 0

/-- `arena_resize(self, new_size)`: rejects `new_size == 0` and
`new_size < offset`; on reservation failure reports `false` leaving the
chain untouched; on success the buffer is reallocated (`base` is its
possibly new address) and `size` updated. -/
def arena_resize (c : Chain) (i : Nat) (new_size : Nat) (memOk : Bool) (base : Nat) :
    Bool × Chain :=
  if new_size = 0 then (false, c)
  else
    match c.get? i with
    | none => (false, c)
    | some ch =>
      if new_size < ch.offset then (false, c)
      else if memOk = false then (false, c)
      else (true, c.set i { ch with memory := base, size := new_size })

/-- The `cursor ≤ capacity` invariant of the spec, chunkwise. -/
def CursorInv (c : Chain) : Prop := ∀ ch ∈ c, ch.offset ≤ ch.size

/-- The `peak_cursor ≤ capacity` invariant of the spec, chunkwise. -/
def PeakInv (c : Chain) : Prop := ∀ ch ∈ c, ch.peak_usage ≤ ch.size

/-- Arena states reachable through the public interface: every operation
is invoked on the handle returned by `Arena_create`, the head chunk
(index 0), exactly as the call sites in `example.c` do. -/
inductive Reach : Chain → Prop
  | created (size : Nat) (memOk : Bool) (base : Nat) (ch : Chunk)
      (h : Arena_create size memOk base = some ch) : Reach [ch]
  | alloc_step (c : Chain) (size : Nat) (memOk : Bool) (base : Nat)
      (h : Reach c) : Reach (arena_alloc c 0 size memOk base).2
  | alloc_aligned_step (c : Chain) (size alignment : Nat) (memOk : Bool) (base : Nat)
      (h : Reach c) : Reach (arena_alloc_aligned c 0 size alignment memOk base).2
  | realloc_step (c : Chain) (ptr : Option View) (old_size new_size : Nat)
      (memOk : Bool) (base : Nat)
      (h : Reach c) : Reach (arena_realloc c 0 ptr old_size new_size memOk base).2.1
  | reset_step (c : Chain) (h : Reach c) : Reach (arena_reset c)
  | reset_to_mark_step (c : Chain) (mark : Nat) (h : Reach c) :
      Reach (arena_reset_to_mark c mark)
  | resize_step (c : Chain) (new_size : Nat) (memOk : Bool) (base : Nat)
      (h : Reach c) : Reach (arena_resize c 0 new_size memOk base).2

/-- The cursor of the chunk at index `i`, 0 when `i` is out of range. -/
def offAt (c : Chain) (i : Nat) : Nat := ((c.get? i).map Chunk.offset).getD 0

/-- One public bump-allocation step (plain or aligned), invoked on the
head handle as every call site does. -/
inductive AllocStep : Chain → Chain → Prop
  | alloc (c : Chain) (size : Nat) (memOk : Bool) (base : Nat) :
      AllocStep c (arena_alloc c 0 size memOk base).2
  | aligned (c : Chain) (size alignment : Nat) (memOk : Bool) (base : Nat) :
      AllocStep c (arena_alloc_aligned c 0 size alignment memOk base).2

/-- Any finite sequence of bump-allocation calls. -/
def AllocSteps : Chain → Chain → Prop := Relation.ReflTransGen AllocStep

/-- The `if (!self)` guards of the source functions, modelled at the
handle level: a C caller may hold a null `Arena*`.  Each wrapper returns
the failure value of the source's null branch and leaves the (absent)
state untouched. -/
def arena_alloc_h (h : Option Chain) (size : Nat) (memOk : Bool) (base : Nat) :
    Option View × Option Chain :=
  match h with
  | none => (none, none)
  | some c =>
    ((arena_alloc c 0 size memOk base).1, some (arena_alloc c 0 size memOk base).2)

def arena_alloc_aligned_h (h : Option Chain) (size alignment : Nat) (memOk : Bool)
    (base : Nat) : Option View × Option Chain :=
  match h with
  | none => (none, none)
  | some c =>
    ((arena_alloc_aligned c 0 size alignment memOk base).1,
     some (arena_alloc_aligned c 0 size alignment memOk base).2)

def arena_realloc_h (h : Option Chain) (ptr : Option View) (old_size new_size : Nat)
    (memOk : Bool) (base : Nat) : Option View × Option Chain × Nat :=
  match h with
  | none => (none, none, 0)
  | some c =>
    ((arena_realloc c 0 ptr old_size new_size memOk base).1,
     some (arena_realloc c 0 ptr old_size new_size memOk base).2.1,
     (arena_realloc c 0 ptr old_size new_size memOk base).2.2)

def arena_get_mark_h : Option Chain → Nat
  | none => 0
  | some c => arena_get_mark c 0

def arena_reset_h : Option Chain → Option Chain
  | none => none
  | some c => some (arena_reset c)

def arena_reset_to_mark_h : Option Chain → Nat → Option Chain
  | none, _ => none
  | some c, mark => some (arena_reset_to_mark c mark)

def arena_resize_h : Option Chain → Nat → Bool → Nat → Bool × Option Chain
  | none, _, _, _ => (false, none)
  | some c, new_size, memOk, base =>
    ((arena_resize c 0 new_size memOk base).1, some (arena_resize c 0 new_size memOk base).2)

/-- `arena_destroy` frees every chunk of the chain; afterwards no arena
exists.  On a null handle it is a no-op (the handle stays absent). -/
def arena_destroy_h : Option Chain → Option Chain :=
  fun _ => none

/-- `arena_print_stats` is purely observational: it reports chunk count,
total capacity, total usage and total allocations without touching the
chain; on a null handle it prints nothing. -/
def arena_print_stats_h : Option Chain → Option (Nat × Nat × Nat × Nat)
  | none => none
  | some c =>
    some (c.length, (c.map Chunk.size).sum, (c.map Chunk.offset).sum,
      (c.map Chunk.allocation_count).sum)

theorem Arena_create_eq_some {size : Nat} {memOk : Bool} {base : Nat} {ch : Chunk}
    (h : Arena_create size memOk base = some ch) :
    ch = mkChunk base size ∧ size ≠ 0 ∧ memOk = true := by
  unfold Arena_create at h
  split at h
  · exact absurd h (by simp)
  · split at h
    · exact absurd h (by simp)
    · rename_i h0 hm
      refine ⟨(Option.some_injective _ h).symm, h0, ?_⟩
      cases memOk
      · exact absurd rfl hm
      · rfl

theorem Arena_create_some {size : Nat} {base : Nat} (h : size ≠ 0) :
    Arena_create size true base = some (mkChunk base size) := by
  unfold Arena_create
  simp [h]

theorem cursorInv_cons {ch : Chunk} {l : List Chunk} :
    CursorInv (ch :: l) ↔ ch.offset ≤ ch.size ∧ CursorInv l := by
  simp [CursorInv]

theorem cursorInv_set {c : Chain} {i : Nat} {ch : Chunk} (h : CursorInv c)
    (hch : ch.offset ≤ ch.size) : CursorInv (c.set i ch) := by
  intro x hx
  rcases List.mem_or_eq_of_mem_set hx with hx' | rfl
  · exact h x hx'
  · exact hch

theorem cursorInv_append_singleton {c : Chain} {ch : Chunk} (h : CursorInv c)
    (hch : ch.offset ≤ ch.size) : CursorInv (c ++ [ch]) := by
  intro x hx
  rcases List.mem_append.1 hx with hx' | hx'
  · exact h x hx'
  · simp at hx'
    exact hx' ▸ hch

theorem peakInv_set {c : Chain} {i : Nat} {ch : Chunk} (h : PeakInv c)
    (hch : ch.peak_usage ≤ ch.size) : PeakInv (c.set i ch) := by
  intro x hx
  rcases List.mem_or_eq_of_mem_set hx with hx' | rfl
  · exact h x hx'
  · exact hch

theorem peakInv_append_singleton {c : Chain} {ch : Chunk} (h : PeakInv c)
    (hch : ch.peak_usage ≤ ch.size) : PeakInv (c ++ [ch]) := by
  intro x hx
  rcases List.mem_append.1 hx with hx' | hx'
  · exact h x hx'
  · simp at hx'
    exact hx' ▸ hch

theorem size_le_growSize (ch : Chunk) (size : Nat) : size ≤ growSize ch size := by
  unfold growSize
  split <;> omega

theorem arena_alloc_cursorInv {c : Chain} (i size : Nat) (memOk : Bool) (base : Nat)
    (hc : CursorInv c) : CursorInv (arena_alloc c i size memOk base).2 := by
  unfold arena_alloc
  split
  · exact hc
  · split
    · exact hc
    · rename_i ch hch
      split
      · rename_i hfit
        exact cursorInv_set hc (by simpa [chunkBump] using hfit)
      · split
        · exact hc
        · rename_i new_chunk hnew
          obtain ⟨rfl, -, -⟩ := Arena_create_eq_some hnew
          exact cursorInv_append_singleton hc
            (by simpa [chunkBump, mkChunk] using size_le_growSize ch size)

theorem arena_alloc_peakInv {c : Chain} (i size : Nat) (memOk : Bool) (base : Nat)
    (hp : PeakInv c) : PeakInv (arena_alloc c i size memOk base).2 := by
  unfold arena_alloc
  split
  · exact hp
  · split
    · exact hp
    · rename_i ch hch
      have hps : ch.peak_usage ≤ ch.size := hp ch (List.get?_mem hch)
      split
      · rename_i hfit
        refine peakInv_set hp ?_
        simp only [chunkBump]
        split <;> omega
      · split
        · exact hp
        · rename_i new_chunk hnew
          obtain ⟨rfl, -, -⟩ := Arena_create_eq_some hnew
          have hle : size ≤ growSize ch size := size_le_growSize ch size
          refine peakInv_append_singleton hp ?_
          simp only [chunkBump, mkChunk]
          split
          · simpa using hle
          · simp

theorem align_forward_sub_lt {p a : Nat} (ha : is_power_of_two a = true) :
    align_forward p a - p < a := by
  have ha0 : a ≠ 0 := by
    simp only [is_power_of_two, Bool.and_eq_true, bne_iff_ne, ne_eq] at ha
    exact ha.1
  unfold align_forward
  have hm : p % a < a := Nat.mod_lt _ (Nat.pos_of_ne_zero ha0)
  split <;> omega

theorem chunkPadding_lt {ch : Chunk} {a : Nat} (ha : is_power_of_two a = true) :
    chunkPadding ch a < a :=
  align_forward_sub_lt ha

theorem required_le_growSizeAligned (ch : Chunk) (size alignment : Nat) :
    size + alignment ≤ growSizeAligned ch size alignment := by
  unfold growSizeAligned
  split <;> omega

theorem arena_alloc_aligned_cursorInv {c : Chain} (i size alignment : Nat) (memOk : Bool)
    (base : Nat) (hc : CursorInv c) :
    CursorInv (arena_alloc_aligned c i size alignment memOk base).2 := by
  unfold arena_alloc_aligned
  split
  · exact hc
  · split
    · exact hc
    · rename_i hpow2
      split
      · exact hc
      · rename_i ch hch
        split
        · rename_i hfit
          exact cursorInv_set hc (by simpa using hfit)
        · split
          · exact hc
          · rename_i new_chunk hnew
            obtain ⟨rfl, -, -⟩ := Arena_create_eq_some hnew
            have hpow : is_power_of_two alignment = true := by
              cases h' : is_power_of_two alignment
              · exact absurd h' hpow2
              · rfl
            have hpad : chunkPadding (mkChunk base (growSizeAligned ch size alignment))
                alignment < alignment := chunkPadding_lt hpow
            have hle : size + alignment ≤ growSizeAligned ch size alignment :=
              required_le_growSizeAligned ch size alignment
            refine cursorInv_append_singleton hc ?_
            simp only [mkChunk] at hpad ⊢
            omega

theorem arena_alloc_aligned_peakInv {c : Chain} (i size alignment : Nat) (memOk : Bool)
    (base : Nat) (hp : PeakInv c) :
    PeakInv (arena_alloc_aligned c i size alignment memOk base).2 := by
  unfold arena_alloc_aligned
  split
  · exact hp
  · split
    · exact hp
    · rename_i hpow2
      split
      · exact hp
      · rename_i ch hch
        have hps : ch.peak_usage ≤ ch.size := hp ch (List.get?_mem hch)
        split
        · rename_i hfit
          refine peakInv_set hp ?_
          simp only []
          split <;> omega
        · split
          · exact hp
          · rename_i new_chunk hnew
            obtain ⟨rfl, -, -⟩ := Arena_create_eq_some hnew
            have hpow : is_power_of_two alignment = true := by
              cases h' : is_power_of_two alignment
              · exact absurd h' hpow2
              · rfl
            have hpad : chunkPadding (mkChunk base (growSizeAligned ch size alignment))
                alignment < alignment := chunkPadding_lt hpow
            have hle : size + alignment ≤ growSizeAligned ch size alignment :=
              required_le_growSizeAligned ch size alignment
            refine peakInv_append_singleton hp ?_
            simp only [mkChunk] at hpad ⊢
            omega

theorem arena_realloc_cursorInv {c : Chain} (i : Nat) (ptr : Option View)
    (old_size new_size : Nat) (memOk : Bool) (base : Nat) (hc : CursorInv c) :
    CursorInv (arena_realloc c i ptr old_size new_size memOk base).2.1 := by
  unfold arena_realloc
  split
  · exact arena_alloc_cursorInv i new_size memOk base hc
  · split
    · exact hc
    · split
      · exact hc
      · rename_i ch hch
        split
        · split
          · rename_i hfit
            exact cursorInv_set hc (by simpa using hfit)
          · exact arena_alloc_cursorInv i new_size memOk base hc
        · exact arena_alloc_cursorInv i new_size memOk base hc

theorem arena_realloc_peakInv {c : Chain} (i : Nat) (ptr : Option View)
    (old_size new_size : Nat) (memOk : Bool) (base : Nat) (hp : PeakInv c) :
    PeakInv (arena_realloc c i ptr old_size new_size memOk base).2.1 := by
  unfold arena_realloc
  split
  · exact arena_alloc_peakInv i new_size memOk base hp
  · split
    · exact hp
    · split
      · exact hp
      · rename_i ch hch
        have hps : ch.peak_usage ≤ ch.size := hp ch (List.get?_mem hch)
        split
        · split
          · rename_i hfit
            refine peakInv_set hp ?_
            simp only []
            split <;> omega
          · exact arena_alloc_peakInv i new_size memOk base hp
        · exact arena_alloc_peakInv i new_size memOk base hp

theorem arena_reset_cursorInv (c : Chain) : CursorInv (arena_reset c) := by
  intro x hx
  obtain ⟨y, hy, rfl⟩ := List.mem_map.1 hx
  exact Nat.zero_le _

theorem arena_reset_peakInv {c : Chain} (hp : PeakInv c) : PeakInv (arena_reset c) := by
  intro x hx
  obtain ⟨y, hy, rfl⟩ := List.mem_map.1 hx
  exact hp y hy

theorem resetToMarkGo_cursorInv (mark : Nat) :
    ∀ (l : List Chunk) (cum : Nat) (found : Bool), CursorInv l →
    CursorInv (resetToMarkGo mark l cum found)
  | [], _, _, _ => by simp [CursorInv, resetToMarkGo]
  | ch :: rest, cum, found, hc => by
    have hc' : CursorInv rest := fun x hx => hc x (List.mem_cons_of_mem _ hx)
    have hchh : ch.offset ≤ ch.size := hc ch (List.mem_cons_self _ _)
    unfold resetToMarkGo
    split
    · rename_i hcond
      intro x hx
      rcases List.mem_cons.1 hx with rfl | hx'
      · simp
        omega
      · exact resetToMarkGo_cursorInv mark rest (cum + ch.size) true hc' x hx'
    · split
      · intro x hx
        rcases List.mem_cons.1 hx with rfl | hx'
        · simp
        · exact resetToMarkGo_cursorInv mark rest (cum + ch.size) found hc' x hx'
      · intro x hx
        rcases List.mem_cons.1 hx with rfl | hx'
        · exact hchh
        · exact resetToMarkGo_cursorInv mark rest (cum + ch.size) found hc' x hx'

theorem resetToMarkGo_peakInv (mark : Nat) :
    ∀ (l : List Chunk) (cum : Nat) (found : Bool), PeakInv l →
    PeakInv (resetToMarkGo mark l cum found)
  | [], _, _, _ => by simp [PeakInv, resetToMarkGo]
  | ch :: rest, cum, found, hp => by
    have hp' : PeakInv rest := fun x hx => hp x (List.mem_cons_of_mem _ hx)
    have hph : ch.peak_usage ≤ ch.size := hp ch (List.mem_cons_self _ _)
    unfold resetToMarkGo
    split
    · intro x hx
      rcases List.mem_cons.1 hx with rfl | hx'
      · simpa using hph
      · exact resetToMarkGo_peakInv mark rest (cum + ch.size) true hp' x hx'
    · split
      · intro x hx
        rcases List.mem_cons.1 hx with rfl | hx'
        · simpa using hph
        · exact resetToMarkGo_peakInv mark rest (cum + ch.size) found hp' x hx'
      · intro x hx
        rcases List.mem_cons.1 hx with rfl | hx'
        · exact hph
        · exact resetToMarkGo_peakInv mark rest (cum + ch.size) found hp' x hx'

theorem arena_reset_to_mark_cursorInv {c : Chain} (mark : Nat) (hc : CursorInv c) :
    CursorInv (arena_reset_to_mark c mark) :=
  resetToMarkGo_cursorInv mark c 0 false hc

theorem arena_reset_to_mark_peakInv {c : Chain} (mark : Nat) (hp : PeakInv c) :
    PeakInv (arena_reset_to_mark c mark) :=
  resetToMarkGo_peakInv mark c 0 false hp

theorem arena_resize_cursorInv {c : Chain} (i new_size : Nat) (memOk : Bool) (base : Nat)
    (hc : CursorInv c) : CursorInv (arena_resize c i new_size memOk base).2 := by
  unfold arena_resize
  split
  · exact hc
  · split
    · exact hc
    · rename_i ch hch
      split
      · exact hc
      · split
        · exact hc
        · rename_i hbig _
          exact cursorInv_set hc (by simpa using Nat.le_of_not_lt hbig)

theorem arena_alloc_length_le (c : Chain) (i size : Nat) (memOk : Bool) (base : Nat) :
    c.length ≤ (arena_alloc c i size memOk base).2.length := by
  unfold arena_alloc
  split
  · exact le_refl _
  · split
    · exact le_refl _
    · split
      · simp
      · split
        · exact le_refl _
        · simp

theorem arena_alloc_aligned_length_le (c : Chain) (i size alignment : Nat)
    (memOk : Bool) (base : Nat) :
    c.length ≤ (arena_alloc_aligned c i size alignment memOk base).2.length := by
  unfold arena_alloc_aligned
  split
  · exact le_refl _
  · split
    · exact le_refl _
    · split
      · exact le_refl _
      · split
        · simp
        · split
          · exact le_refl _
          · simp

theorem arena_realloc_length_le (c : Chain) (i : Nat) (ptr : Option View)
    (old_size new_size : Nat) (memOk : Bool) (base : Nat) :
    c.length ≤ (arena_realloc c i ptr old_size new_size memOk base).2.1.length := by
  unfold arena_realloc
  split
  · exact arena_alloc_length_le c i new_size memOk base
  · split
    · exact le_refl _
    · split
      · exact le_refl _
      · split
        · split
          · simp
          · exact arena_alloc_length_le c i new_size memOk base
        · exact arena_alloc_length_le c i new_size memOk base

theorem arena_reset_length (c : Chain) : (arena_reset c).length = c.length := by
  simp [arena_reset]

theorem resetToMarkGo_length (mark : Nat) :
    ∀ (l : List Chunk) (cum : Nat) (found : Bool),
    (resetToMarkGo mark l cum found).length = l.length
  | [], _, _ => rfl
  | ch :: rest, cum, found => by
    unfold resetToMarkGo
    split
    · simp [resetToMarkGo_length mark rest (cum + ch.size) true]
    · split
      · simp [resetToMarkGo_length mark rest (cum + ch.size) found]
      · simp [resetToMarkGo_length mark rest (cum + ch.size) found]

theorem arena_reset_to_mark_length (c : Chain) (mark : Nat) :
    (arena_reset_to_mark c mark).length = c.length :=
  resetToMarkGo_length mark c 0 false

theorem arena_resize_length (c : Chain) (i new_size : Nat) (memOk : Bool) (base : Nat) :
    (arena_resize c i new_size memOk base).2.length = c.length := by
  unfold arena_resize
  split
  · rfl
  · split
    · rfl
    · split
      · rfl
      · split
        · rfl
        · simp

/-- Every reachable chain is nonempty: the head chunk is never freed. -/
theorem Reach.ne_nil {c : Chain} (h : Reach c) : c ≠ [] := by
  have : 0 < c.length := by
    induction h with
    | created size memOk base ch h => simp
    | alloc_step c size memOk base h ih =>
      exact lt_of_lt_of_le ih (arena_alloc_length_le c 0 size memOk base)
    | alloc_aligned_step c size alignment memOk base h ih =>
      exact lt_of_lt_of_le ih (arena_alloc_aligned_length_le c 0 size alignment memOk base)
    | realloc_step c ptr old_size new_size memOk base h ih =>
      exact lt_of_lt_of_le ih (arena_realloc_length_le c 0 ptr old_size new_size memOk base)
    | reset_step c h ih => simpa [arena_reset_length] using ih
    | reset_to_mark_step c mark h ih => simpa [arena_reset_to_mark_length] using ih
    | resize_step c new_size memOk base h ih => simpa [arena_resize_length] using ih
  exact List.length_pos.1 this

/-- Every chunk of every reachable chain satisfies `cursor ≤ capacity`. -/
theorem Reach.cursorInv {c : Chain} (h : Reach c) : CursorInv c := by
  induction h with
  | created size memOk base ch h =>
    obtain ⟨rfl, -, -⟩ := Arena_create_eq_some h
    intro x hx
    simp at hx
    simp [hx, mkChunk]
  | alloc_step c size memOk base h ih =>
    exact arena_alloc_cursorInv 0 size memOk base ih
  | alloc_aligned_step c size alignment memOk base h ih =>
    exact arena_alloc_aligned_cursorInv 0 size alignment memOk base ih
  | realloc_step c ptr old_size new_size memOk base h ih =>
    exact arena_realloc_cursorInv 0 ptr old_size new_size memOk base ih
  | reset_step c h ih => exact arena_reset_cursorInv c
  | reset_to_mark_step c mark h ih =>
    exact arena_reset_to_mark_cursorInv mark ih
  | resize_step c new_size memOk base h ih =>
    exact arena_resize_cursorInv 0 new_size memOk base ih

theorem arena_get_mark_head (ch : Chunk) (rest : List Chunk) :
    arena_get_mark (ch :: rest) 0 = ch.offset := by
  simp [arena_get_mark, getMarkGo]

theorem getMarkGo_eq_sum :
    ∀ (l : List Chunk) (i : Nat) (acc : Nat), i < l.length →
      getMarkGo l i acc = acc + ((l.take (i + 1)).map Chunk.offset).sum
  | [], i, acc, h => absurd h (by simp)
  | ch :: rest, 0, acc, _ => by simp [getMarkGo]
  | ch :: rest, i + 1, acc, h => by
    have hi : i < rest.length := by simpa using h
    have ih := getMarkGo_eq_sum rest i (acc + ch.offset) hi
    show getMarkGo rest i (acc + ch.offset) = _
    rw [ih]
    simp
    omega

theorem offAt_set_self {c : Chain} {ch : Chunk} {i : Nat} (h : c.get? i = some ch)
    (x : Chunk) : offAt (c.set i x) i = x.offset := by
  have hi : i < c.length := (List.get?_eq_some.1 h).1
  unfold offAt
  rw [List.get?_eq_getElem?, List.getElem?_set_self']
  simp [List.getElem?_eq_getElem hi]

theorem offAt_set_ne {c : Chain} {i j : Nat} (h : i ≠ j) (x : Chunk) :
    offAt (c.set i x) j = offAt c j := by
  unfold offAt
  simp [List.get?_eq_getElem?, List.getElem?_set_ne h]

theorem offAt_append_lt {c : Chain} {j : Nat} (h : j < c.length) (x : Chunk) :
    offAt (c ++ [x]) j = offAt c j := by
  unfold offAt
  simp [List.get?_eq_getElem?, List.getElem?_append, h]

theorem offAt_ge_length {c : Chain} {j : Nat} (h : c.length ≤ j) : offAt c j = 0 := by
  unfold offAt
  simp [List.get?_eq_getElem?, List.getElem?_eq_none h]

theorem offAt_head {ch : Chunk} {rest : List Chunk} : offAt (ch :: rest) 0 = ch.offset := by
  simp [offAt]

theorem offAt_get {c : Chain} {i : Nat} {ch : Chunk} (h : c.get? i = some ch) :
    offAt c i = ch.offset := by
  unfold offAt
  rw [h]
  rfl

theorem offAt_append_length {c : Chain} (x : Chunk) : offAt (c ++ [x]) c.length = x.offset := by
  unfold offAt
  simp [List.get?_eq_getElem?]

theorem arena_alloc_offAt_le (c : Chain) (size : Nat) (memOk : Bool) (base : Nat) (j : Nat) :
    offAt c j ≤ offAt (arena_alloc c 0 size memOk base).2 j := by
  unfold arena_alloc
  split
  · exact le_refl _
  · split
    · exact le_refl _
    · rename_i ch hch
      split
      · rcases Nat.eq_zero_or_pos j with rfl | hj
        · rw [offAt_set_self hch, offAt_get hch]
          simp [chunkBump]
        · rw [offAt_set_ne (by omega)]
      · split
        · exact le_refl _
        · rcases Nat.lt_or_ge j c.length with hj | hj
          · rw [offAt_append_lt hj]
          · rw [offAt_ge_length hj]
            exact Nat.zero_le _

theorem arena_alloc_aligned_offAt_le (c : Chain) (size alignment : Nat) (memOk : Bool)
    (base : Nat) (j : Nat) :
    offAt c j ≤ offAt (arena_alloc_aligned c 0 size alignment memOk base).2 j := by
  unfold arena_alloc_aligned
  split
  · exact le_refl _
  · split
    · exact le_refl _
    · split
      · exact le_refl _
      · rename_i ch hch
        split
        · rcases Nat.eq_zero_or_pos j with rfl | hj
          · rw [offAt_set_self hch, offAt_get hch]
            simp only []
            omega
          · rw [offAt_set_ne (by omega)]
        · split
          · exact le_refl _
          · rcases Nat.lt_or_ge j c.length with hj | hj
            · rw [offAt_append_lt hj]
            · rw [offAt_ge_length hj]
              exact Nat.zero_le _

theorem allocSteps_offAt_le {c c' : Chain} (h : AllocSteps c c') (j : Nat) :
    offAt c j ≤ offAt c' j := by
  induction h with
  | refl => exact le_refl _
  | tail hs hstep ih =>
    refine le_trans ih ?_
    cases hstep with
    | alloc size memOk base => exact arena_alloc_offAt_le _ size memOk base j
    | aligned size alignment memOk base =>
      exact arena_alloc_aligned_offAt_le _ size alignment memOk base j

theorem allocSteps_length_le {c c' : Chain} (h : AllocSteps c c') :
    c.length ≤ c'.length := by
  induction h with
  | refl => exact le_refl _
  | tail hs hstep ih =>
    refine le_trans ih ?_
    cases hstep with
    | alloc size memOk base => exact arena_alloc_length_le _ 0 size memOk base
    | aligned size alignment memOk base =>
      exact arena_alloc_aligned_length_le _ 0 size alignment memOk base

/-- A successful `arena_alloc` on the head handle leaves the cursor of
the chunk that served the view at or beyond the view's end, and the view
points into the resulting chain. -/
theorem arena_alloc_success_served {c : Chain} {size : Nat} {memOk : Bool} {base : Nat}
    {v : View} :
    (arena_alloc c 0 size memOk base).1 = some v →
    v.off + size ≤ offAt (arena_alloc c 0 size memOk base).2 v.chunk ∧
      v.chunk < (arena_alloc c 0 size memOk base).2.length := by
  unfold arena_alloc
  split
  · intro h
    exact absurd h (by simp)
  · split
    · intro h
      exact absurd h (by simp)
    · rename_i ch hch
      have hlen : 0 < c.length := by
        by_contra hn
        rw [List.get?_eq_getElem?, List.getElem?_eq_none (by omega)] at hch
        exact absurd hch (by simp)
      split
      · intro h
        simp only [Option.some_inj] at h
        subst h
        refine ⟨?_, ?_⟩
        · show ch.offset + size ≤ offAt (c.set 0 (chunkBump ch size)) 0
          rw [offAt_set_self hch]
          simp [chunkBump]
        · show 0 < (c.set 0 (chunkBump ch size)).length
          simpa using hlen
      · split
        · intro h
          exact absurd h (by simp)
        · rename_i new_chunk hnew
          obtain ⟨rfl, -, -⟩ := Arena_create_eq_some hnew
          intro h
          simp only [Option.some_inj] at h
          subst h
          refine ⟨?_, ?_⟩
          · show 0 + size ≤
              offAt (c ++ [chunkBump (mkChunk base (growSize ch size)) size]) c.length
            rw [offAt_append_length]
            simp [chunkBump, mkChunk]
          · simp

/-- A successful `arena_alloc` on the head handle serves either from the
head chunk at its current cursor, or from the freshly appended chunk. -/
theorem arena_alloc_success_shape {c : Chain} {size : Nat} {memOk : Bool} {base : Nat}
    {v : View} :
    (arena_alloc c 0 size memOk base).1 = some v →
    (v.chunk = 0 ∧ v.off = offAt c 0) ∨ v.chunk = c.length := by
  unfold arena_alloc
  split
  · intro h
    exact absurd h (by simp)
  · split
    · intro h
      exact absurd h (by simp)
    · rename_i ch hch
      split
      · intro h
        simp only [Option.some_inj] at h
        subst h
        exact Or.inl ⟨rfl, (offAt_get hch).symm⟩
      · split
        · intro h
          exact absurd h (by simp)
        · intro h
          simp only [Option.some_inj] at h
          subst h
          exact Or.inr rfl

/-- The in-place fast path of `arena_realloc`, fully computed: when the
view ends exactly at the handle chunk's cursor and the adjusted cursor
stays within capacity, the cursor is moved to
`offset - old_size + new_size`, the same view is returned and nothing is
copied. -/
theorem realloc_fast_path_eq (ch : Chunk) (rest : List Chunk) (old_size new_size : Nat)
    (memOk : Bool) (base : Nat) (hnz : new_size ≠ 0) (hold : old_size ≤ ch.offset)
    (hfit : ch.offset - old_size + new_size ≤ ch.size) :
    arena_realloc (ch :: rest) 0 (some ⟨0, ch.offset - old_size⟩) old_size new_size
        memOk base =
      (some ⟨0, ch.offset - old_size⟩,
       { ch with
         offset := ch.offset - old_size + new_size
         peak_usage :=
           if ch.offset - old_size + new_size > ch.peak_usage then
             ch.offset - old_size + new_size
           else ch.peak_usage } :: rest,
       0) := by
  unfold arena_realloc
  simp only [List.get?]
  rw [if_neg hnz, if_pos ⟨hold, by simp⟩, if_pos hfit]
  rfl

/-- Once `found` is set, `arena_reset_to_mark`'s walk zeroes `offset`
and `allocation_count` of every remaining chunk. -/
theorem resetToMarkGo_found (mark : Nat) :
    ∀ (l : List Chunk) (cum : Nat),
      resetToMarkGo mark l cum true =
        l.map fun x => { x with offset := 0, allocation_count := 0 }
  | [], _ => rfl
  | ch :: rest, cum => by
    unfold resetToMarkGo
    rw [if_neg (by simp), if_pos rfl]
    simp [resetToMarkGo_found mark rest (cum + ch.size)]

/-- C1 (counterexample): in the reachable two-chunk chain built by
create(1024); allocate(900); allocate(200), the tail chunk (index 1,
capacity 2048, cursor 200) has 1848 free bytes — plenty for a request of
150 — yet allocate(150) on the arena handle is NOT served from the tail:
the handle (head) chunk cannot fit 150, so the code grows, appending a
third chunk and serving the request there.  This refutes both "allocate
satisfies the request from the current tail chunk" and "growth occurs
only when the tail cannot satisfy the request". -/
theorem C1_counterexample :
    Reach (arena_alloc (arena_alloc [mkChunk 0 1024] 0 900 true 0).2 0 200 true 50000).2 ∧
    (arena_alloc (arena_alloc [mkChunk 0 1024] 0 900 true 0).2 0 200 true 50000).2 =
      [⟨0, 1024, 900, 900, 1, 900⟩, ⟨50000, 2048, 200, 200, 1, 200⟩] ∧
    (200 : Nat) + 150 ≤ 2048 ∧
    arena_alloc [⟨0, 1024, 900, 900, 1, 900⟩, ⟨50000, 2048, 200, 200, 1, 200⟩]
        0 150 true 60000 =
      (some ⟨2, 0⟩,
       [⟨0, 1024, 900, 900, 1, 900⟩, ⟨50000, 2048, 200, 200, 1, 200⟩,
        ⟨60000, 2048, 150, 150, 1, 150⟩]) :=
  ⟨Reach.alloc_step _ 200 true 50000
      (Reach.alloc_step _ 900 true 0 (Reach.created 1024 true 0 _ rfl)),
   by decide, by decide, by decide⟩

/-- C1 (amended): `allocate(s)` with `s > 0` works on the handle chunk
itself (every caller's handle is the head), never on the chain's tail:
if the handle chunk has room (`cursor + s ≤ capacity`) the request is
served there, returning the view at its `[cursor, cursor+s)` and
advancing its cursor; otherwise — regardless of free space in any later
chunk — exactly one fresh chunk is appended at the end of the chain and
the request is served from it. -/
theorem C1_alloc_from_handle_chunk (ch : Chunk) (rest : List Chunk) (size : Nat)
    (memOk : Bool) (base : Nat) (hsz : size ≠ 0) :
    (ch.offset + size ≤ ch.size →
      arena_alloc (ch :: rest) 0 size memOk base =
        (some ⟨0, ch.offset⟩, chunkBump ch size :: rest)) ∧
    (¬ ch.offset + size ≤ ch.size → memOk = true →
      arena_alloc (ch :: rest) 0 size memOk base =
        (some ⟨(ch :: rest).length, 0⟩,
         (ch :: rest) ++ [chunkBump (mkChunk base (growSize ch size)) size])) := by
  constructor
  · intro hfit
    unfold arena_alloc
    simp only [List.get?]
    rw [if_neg hsz, if_pos hfit]
    rfl
  · intro hnofit hmem
    subst hmem
    unfold arena_alloc
    simp only [List.get?]
    rw [if_neg hsz, if_neg hnofit]
    have hnzg : growSize ch size ≠ 0 := by
      have := size_le_growSize ch size
      omega
    rw [Arena_create_some hnzg]

/-- C1 (witness): the amended theorem applied to a one-chunk arena of
capacity 8 and cursor 0, allocating 3 bytes (the in-chunk branch), and
to the same arena allocating 20 bytes (the growth branch). -/
theorem C1_witness :
    arena_alloc [mkChunk 5 8] 0 3 true 77 =
      (some ⟨0, 0⟩, [chunkBump (mkChunk 5 8) 3]) ∧
    arena_alloc [mkChunk 5 8] 0 20 true 77 =
      (some ⟨1, 0⟩, [mkChunk 5 8] ++ [chunkBump (mkChunk 77 (growSize (mkChunk 5 8) 20)) 20]) :=
  ⟨(C1_alloc_from_handle_chunk (mkChunk 5 8) [] 3 true 77 (by decide)).1 (by decide),
   (C1_alloc_from_handle_chunk (mkChunk 5 8) [] 20 true 77 (by decide)).2 (by decide) rfl⟩

/-- C2 (counterexample): a chunk of capacity `C = 3` with cursor 0
cannot satisfy a request of `s = 4` (remaining 3 < 4); the appended
chunk's capacity is `2·C = 6` (since `2·C < s` fails), not
`max(2·C, 2·s) = 8`, refuting "that chunk's capacity equals (and in
particular is at least) max(2 × C, 2 × s)". -/
theorem C2_counterexample :
    ¬ ((0 : Nat) + 4 ≤ 3) ∧
    arena_alloc [mkChunk 0 3] 0 4 true 7 =
      (some ⟨1, 0⟩, [mkChunk 0 3, ⟨7, 6, 4, 4, 1, 4⟩]) ∧
    ¬ (max (2 * 3) (2 * 4) ≤ (6 : Nat)) := by
  refine ⟨by decide, by decide, by decide⟩

/-- C2 (amended): when the handle chunk of capacity `C` cannot satisfy a
request of `s > 0`, exactly one fresh chunk is appended as the new tail
and the request is served inside it; the new capacity is `2·s` if
`2·C < s` and `2·C` otherwise (the source doubles the capacity first and
only switches to `2·s` when the doubled capacity is still below `s`) —
hence always at least `max(2·C, s)`, but not `max(2·C, 2·s)`.  For
aligned requests the sizing uses `required = s + alignment` in the same
way: `2·required` if `2·C < required`, else `2·C`, at least
`max(2·C, s + alignment)`. -/
theorem C2_growth_capacity (ch : Chunk) (rest : List Chunk) (size alignment : Nat)
    (base : Nat) :
    (size ≠ 0 → ¬ ch.offset + size ≤ ch.size →
      (∃ nc : Chunk,
        arena_alloc (ch :: rest) 0 size true base =
          (some ⟨(ch :: rest).length, 0⟩, (ch :: rest) ++ [nc]) ∧
        nc.size = growSize ch size ∧
        nc.offset = size) ∧
      growSize ch size = (if ch.size * 2 < size then size * 2 else ch.size * 2) ∧
      max (ch.size * 2) size ≤ growSize ch size) ∧
    (size ≠ 0 → is_power_of_two alignment = true →
      ¬ ch.offset + chunkPadding ch alignment + size ≤ ch.size →
      (∃ nc : Chunk,
        arena_alloc_aligned (ch :: rest) 0 size alignment true base =
          (some ⟨(ch :: rest).length,
                 chunkPadding (mkChunk base (growSizeAligned ch size alignment)) alignment⟩,
           (ch :: rest) ++ [nc]) ∧
        nc.size = growSizeAligned ch size alignment) ∧
      growSizeAligned ch size alignment =
        (if ch.size * 2 < size + alignment then (size + alignment) * 2 else ch.size * 2) ∧
      max (ch.size * 2) (size + alignment) ≤ growSizeAligned ch size alignment) := by
  constructor
  · intro hsz hnofit
    refine ⟨?_, rfl, ?_⟩
    · refine ⟨chunkBump (mkChunk base (growSize ch size)) size, ?_, ?_, ?_⟩
      · unfold arena_alloc
        simp only [List.get?]
        rw [if_neg hsz, if_neg hnofit]
        have hnzg : growSize ch size ≠ 0 := by
          have := size_le_growSize ch size
          omega
        rw [Arena_create_some hnzg]
      · simp [chunkBump, mkChunk]
      · simp [chunkBump, mkChunk]
    · have := size_le_growSize ch size
      unfold growSize at this ⊢
      split <;> omega
  · intro hsz hpow hnofit
    refine ⟨?_, rfl, ?_⟩
    · refine ⟨⟨base, growSizeAligned ch size alignment,
          chunkPadding (mkChunk base (growSizeAligned ch size alignment)) alignment + size,
          chunkPadding (mkChunk base (growSizeAligned ch size alignment)) alignment + size,
          1, size + chunkPadding (mkChunk base (growSizeAligned ch size alignment)) alignment⟩,
        ?_, rfl⟩
      unfold arena_alloc_aligned
      simp only [List.get?]
      rw [if_neg hsz, if_neg (by simp [hpow]), if_neg hnofit]
      have hnzg : growSizeAligned ch size alignment ≠ 0 := by
        have := required_le_growSizeAligned ch size alignment
        have ha0 : alignment ≠ 0 := by
          simp only [is_power_of_two, Bool.and_eq_true, bne_iff_ne, ne_eq] at hpow
          exact hpow.1
        omega
      rw [Arena_create_some hnzg]
      rfl
    · have := required_le_growSizeAligned ch size alignment
      unfold growSizeAligned at this ⊢
      split <;> omega

/-- C2 (witness): the amended theorem applied to a chunk of capacity 3
with cursor 0 and a request of 4 (plain branch, `2·C = 6 ≥ 4` so the new
capacity is 6), and to an aligned request of 4 with alignment 8 on the
same chunk (`2·C = 6 < 4 + 8` so the new capacity is `2·12 = 24`). -/
theorem C2_witness :
    ((∃ nc : Chunk,
        arena_alloc [mkChunk 0 3] 0 4 true 7 =
          (some ⟨[mkChunk 0 3].length, 0⟩, [mkChunk 0 3] ++ [nc]) ∧
        nc.size = growSize (mkChunk 0 3) 4 ∧
        nc.offset = 4) ∧
      growSize (mkChunk 0 3) 4 = (if (mkChunk 0 3).size * 2 < 4 then 4 * 2
        else (mkChunk 0 3).size * 2) ∧
      max ((mkChunk 0 3).size * 2) 4 ≤ growSize (mkChunk 0 3) 4) ∧
    ((∃ nc : Chunk,
        arena_alloc_aligned [mkChunk 0 3] 0 4 8 true 7 =
          (some ⟨[mkChunk 0 3].length,
                 chunkPadding (mkChunk 7 (growSizeAligned (mkChunk 0 3) 4 8)) 8⟩,
           [mkChunk 0 3] ++ [nc]) ∧
        nc.size = growSizeAligned (mkChunk 0 3) 4 8) ∧
      growSizeAligned (mkChunk 0 3) 4 8 =
        (if (mkChunk 0 3).size * 2 < 4 + 8 then (4 + 8) * 2 else (mkChunk 0 3).size * 2) ∧
      max ((mkChunk 0 3).size * 2) (4 + 8) ≤ growSizeAligned (mkChunk 0 3) 4 8) :=
  ⟨(C2_growth_capacity (mkChunk 0 3) [] 4 8 7).1 (by decide) (by decide),
   (C2_growth_capacity (mkChunk 0 3) [] 4 8 7).2 (by decide) (by decide) (by decide)⟩

/-- C3 (counterexample): in the run create(1024); allocate(500);
allocate(2048), both allocations succeed and growth occurs, but
`get_mark` on the arena handle returns 500 after the second allocation
as well, not 2548: the source's chain walk stops as soon as it reaches
`self`, which is the head, so chunks after the handle never contribute.
This refutes "get_mark() ... returns ... 2548 after the second". -/
theorem C3_counterexample :
    (arena_alloc [mkChunk 0 1024] 0 500 true 0).1.isSome = true ∧
    arena_get_mark (arena_alloc [mkChunk 0 1024] 0 500 true 0).2 0 = 500 ∧
    (arena_alloc (arena_alloc [mkChunk 0 1024] 0 500 true 0).2
        0 2048 true 90000).1.isSome = true ∧
    (arena_alloc (arena_alloc [mkChunk 0 1024] 0 500 true 0).2
        0 2048 true 90000).2.length = 2 ∧
    arena_get_mark (arena_alloc (arena_alloc [mkChunk 0 1024] 0 500 true 0).2
        0 2048 true 90000).2 0 = 500 ∧
    (500 : Nat) ≠ 2548 := by
  refine ⟨by decide, by decide, by decide, by decide, by decide, by decide⟩

/-- C3 (amended): in the run create(1024); allocate(500);
allocate(2048) both allocations succeed (the second growing the chain to
two chunks) and `get_mark` on the arena handle returns 500 after the
first allocation and still 500 after the second; in general the mark of
the chunk at index `i` equals the sum of the cursors of all chunks
preceding it in chain order plus its own cursor — which on the head
handle is just the head's cursor. -/
theorem C3_mark_scenario :
    (∀ (c : Chain) (i : Nat), i < c.length →
      arena_get_mark c i = ((c.take (i + 1)).map Chunk.offset).sum) ∧
    (arena_alloc [mkChunk 0 1024] 0 500 true 0).1.isSome = true ∧
    arena_get_mark (arena_alloc [mkChunk 0 1024] 0 500 true 0).2 0 = 500 ∧
    (arena_alloc (arena_alloc [mkChunk 0 1024] 0 500 true 0).2
        0 2048 true 90000).1.isSome = true ∧
    arena_get_mark (arena_alloc (arena_alloc [mkChunk 0 1024] 0 500 true 0).2
        0 2048 true 90000).2 0 = 500 := by
  refine ⟨?_, by decide, by decide, by decide, by decide⟩
  intro c i h
  simpa using getMarkGo_eq_sum c i 0 h

/-- C3 (witness): the general mark formula of the amended theorem
evaluated on a concrete two-chunk chain at the tail index. -/
theorem C3_witness :
    arena_get_mark [⟨0, 1024, 500, 500, 1, 500⟩, ⟨9, 2048, 2048, 2048, 1, 2048⟩] 1 =
      ((([⟨0, 1024, 500, 500, 1, 500⟩,
          (⟨9, 2048, 2048, 2048, 1, 2048⟩ : Chunk)] : Chain).take 2).map Chunk.offset).sum :=
  C3_mark_scenario.1 [⟨0, 1024, 500, 500, 1, 500⟩, ⟨9, 2048, 2048, 2048, 1, 2048⟩] 1
    (by decide)

/-- C4 (confirmed): for reachable arenas `c'` (where the mark is taken)
and `c` (where it is restored), provided the head capacity is unchanged
in between (no resize, and the chain identity is the same — allocation
and growth never alter the head's capacity), `get_mark` on the handle
right after `reset_to_mark (get_mark c')` returns exactly the mark:
`get_mark` on the head handle is the head's cursor, which is at most the
head's capacity, so the restore walk always places the mark inside the
head chunk. -/
theorem C4_mark_roundtrip (c c' : Chain) (hc : Reach c) (hc' : Reach c')
    (hsz : c.head?.map Chunk.size = c'.head?.map Chunk.size) :
    arena_get_mark (arena_reset_to_mark c (arena_get_mark c' 0)) 0 =
      arena_get_mark c' 0 := by
  obtain ⟨ch, rest, rfl⟩ : ∃ ch rest, c = ch :: rest := by
    cases c with
    | nil => exact absurd rfl hc.ne_nil
    | cons a l => exact ⟨a, l, rfl⟩
  obtain ⟨ch', rest', rfl⟩ : ∃ a l, c' = a :: l := by
    cases c' with
    | nil => exact absurd rfl hc'.ne_nil
    | cons a l => exact ⟨a, l, rfl⟩
  have hsz' : ch.size = ch'.size := by simpa using hsz
  have hm : ch'.offset ≤ ch'.size := hc'.cursorInv ch' (List.mem_cons_self _ _)
  rw [arena_get_mark_head]
  unfold arena_reset_to_mark resetToMarkGo
  rw [if_pos ⟨rfl, by omega⟩]
  rw [arena_get_mark_head]
  simp

/-- C4 (witness): the round-trip theorem applied to the concrete arena
create(8); allocate(3), taking the mark (3) and restoring it on the same
state. -/
theorem C4_witness :
    arena_get_mark (arena_reset_to_mark (arena_alloc [mkChunk 0 8] 0 3 true 0).2
      (arena_get_mark (arena_alloc [mkChunk 0 8] 0 3 true 0).2 0)) 0 =
    arena_get_mark (arena_alloc [mkChunk 0 8] 0 3 true 0).2 0 :=
  C4_mark_roundtrip _ _
    (Reach.alloc_step _ 3 true 0 (Reach.created 8 true 0 _ rfl))
    (Reach.alloc_step _ 3 true 0 (Reach.created 8 true 0 _ rfl))
    rfl

/-- C5 (counterexample): on the reachable arena create(10); allocate(5)
(head cursor 5, allocation_count 1), `reset` and `reset_to_mark 0`
produce different states: `reset` zeroes the head's `allocation_count`,
while `reset_to_mark 0` sets the head's cursor to 0 but leaves its
`allocation_count` at 1 (the source only zeroes `allocation_count` of
the chunks after the one the mark lands in).  This refutes "reset()
produces the same resulting state as reset_to_mark(0)". -/
theorem C5_counterexample :
    Reach (arena_alloc [mkChunk 0 10] 0 5 true 0).2 ∧
    arena_reset (arena_alloc [mkChunk 0 10] 0 5 true 0).2 ≠
      arena_reset_to_mark (arena_alloc [mkChunk 0 10] 0 5 true 0).2 0 ∧
    arena_reset (arena_alloc [mkChunk 0 10] 0 5 true 0).2 =
      [⟨0, 10, 0, 5, 0, 5⟩] ∧
    arena_reset_to_mark (arena_alloc [mkChunk 0 10] 0 5 true 0).2 0 =
      [⟨0, 10, 0, 5, 1, 5⟩] :=
  ⟨Reach.alloc_step _ 5 true 0 (Reach.created 10 true 0 _ rfl),
   by decide, by decide, by decide⟩

/-- C5 (amended): `reset` zeroes the cursor and `allocation_count` of
every chunk in the chain (head included) while freeing nothing and
preserving every capacity; `reset_to_mark 0` agrees with it on every
field of every chunk except the head's `allocation_count`, which it
leaves unchanged (mark 0 lands in the head, and the walk only zeroes
`allocation_count` of the chunks after the landing chunk). -/
theorem C5_reset_vs_reset_to_mark_zero (ch : Chunk) (rest : List Chunk) :
    arena_reset (ch :: rest) =
      { ch with offset := 0, allocation_count := 0 } ::
        rest.map (fun x => { x with offset := 0, allocation_count := 0 }) ∧
    arena_reset_to_mark (ch :: rest) 0 =
      { ch with offset := 0 } ::
        rest.map (fun x => { x with offset := 0, allocation_count := 0 }) := by
  constructor
  · simp [arena_reset]
  · unfold arena_reset_to_mark resetToMarkGo
    rw [if_pos ⟨rfl, by omega⟩]
    rw [resetToMarkGo_found]

/-- C6 (counterexample): the reachable state built by create(100);
allocate(50); reset(); resize(10) violates `peak_cursor ≤ capacity`:
reset leaves `peak_usage` at 50, and resize only rejects capacities
below the cursor (0 after reset), so it happily shrinks the buffer to
10, stranding `peak_usage = 50 > 10 = capacity`.  This refutes "every
public operation ... preserves both inequalities". -/
theorem C6_counterexample :
    Reach (arena_resize (arena_reset (arena_alloc [mkChunk 0 100] 0 50 true 0).2)
        0 10 true 0).2 ∧
    (arena_resize (arena_reset (arena_alloc [mkChunk 0 100] 0 50 true 0).2)
        0 10 true 0) = (true, [⟨0, 10, 0, 50, 0, 50⟩]) ∧
    ¬ PeakInv (arena_resize (arena_reset (arena_alloc [mkChunk 0 100] 0 50 true 0).2)
        0 10 true 0).2 :=
  ⟨Reach.resize_step _ 10 true 0
      (Reach.reset_step _
        (Reach.alloc_step _ 50 true 0 (Reach.created 100 true 0 _ rfl))),
   by decide,
   by unfold PeakInv; decide⟩

/-- C6 (amended): every chunk of every reachable arena state satisfies
`cursor ≤ capacity`; allocate, allocate_aligned, reallocate, reset and
reset_to_mark preserve both `cursor ≤ capacity` and
`peak_cursor ≤ capacity`; resize preserves `cursor ≤ capacity` (it
rejects capacities below the cursor) but not `peak_cursor ≤ capacity`,
which it can break by shrinking below the recorded peak. -/
theorem C6_invariants :
    (∀ c : Chain, Reach c → CursorInv c) ∧
    (∀ (c : Chain) (i size : Nat) (memOk : Bool) (base : Nat),
      CursorInv c → PeakInv c →
      CursorInv (arena_alloc c i size memOk base).2 ∧
        PeakInv (arena_alloc c i size memOk base).2) ∧
    (∀ (c : Chain) (i size alignment : Nat) (memOk : Bool) (base : Nat),
      CursorInv c → PeakInv c →
      CursorInv (arena_alloc_aligned c i size alignment memOk base).2 ∧
        PeakInv (arena_alloc_aligned c i size alignment memOk base).2) ∧
    (∀ (c : Chain) (i : Nat) (ptr : Option View) (old_size new_size : Nat)
        (memOk : Bool) (base : Nat),
      CursorInv c → PeakInv c →
      CursorInv (arena_realloc c i ptr old_size new_size memOk base).2.1 ∧
        PeakInv (arena_realloc c i ptr old_size new_size memOk base).2.1) ∧
    (∀ c : Chain, PeakInv c →
      CursorInv (arena_reset c) ∧ PeakInv (arena_reset c)) ∧
    (∀ (c : Chain) (mark : Nat), CursorInv c → PeakInv c →
      CursorInv (arena_reset_to_mark c mark) ∧ PeakInv (arena_reset_to_mark c mark)) ∧
    (∀ (c : Chain) (i new_size : Nat) (memOk : Bool) (base : Nat),
      CursorInv c → CursorInv (arena_resize c i new_size memOk base).2) :=
  ⟨fun _ h => h.cursorInv,
   fun _ i s m b hc hp =>
     ⟨arena_alloc_cursorInv i s m b hc, arena_alloc_peakInv i s m b hp⟩,
   fun _ i s a m b hc hp =>
     ⟨arena_alloc_aligned_cursorInv i s a m b hc, arena_alloc_aligned_peakInv i s a m b hp⟩,
   fun _ i p o n m b hc hp =>
     ⟨arena_realloc_cursorInv i p o n m b hc, arena_realloc_peakInv i p o n m b hp⟩,
   fun c hp => ⟨arena_reset_cursorInv c, arena_reset_peakInv hp⟩,
   fun _ mark hc hp =>
     ⟨arena_reset_to_mark_cursorInv mark hc, arena_reset_to_mark_peakInv mark hp⟩,
   fun _ i n m b hc => arena_resize_cursorInv i n m b hc⟩

/-- C6 (witness): the invariant theorem applied to concrete states — the
reachable arena create(10); allocate(5), a reset of a one-chunk arena,
and a resize of a one-chunk arena. -/
theorem C6_witness :
    CursorInv (arena_alloc [mkChunk 0 10] 0 5 true 0).2 ∧
    (CursorInv (arena_reset [⟨3, 7, 2, 2, 1, 2⟩]) ∧
      PeakInv (arena_reset [⟨3, 7, 2, 2, 1, 2⟩])) ∧
    CursorInv (arena_resize [⟨3, 7, 2, 2, 1, 2⟩] 0 6 true 1).2 :=
  ⟨C6_invariants.1 _ (Reach.alloc_step _ 5 true 0 (Reach.created 10 true 0 _ rfl)),
   C6_invariants.2.2.2.2.1 [⟨3, 7, 2, 2, 1, 2⟩] (by unfold PeakInv; decide),
   C6_invariants.2.2.2.2.2.2 [⟨3, 7, 2, 2, 1, 2⟩] 0 6 true 1
     (by unfold CursorInv; decide)⟩

theorem arena_alloc_failure_eq {c : Chain} {i size : Nat} {memOk : Bool} {base : Nat} :
    (arena_alloc c i size memOk base).1 = none →
    (arena_alloc c i size memOk base).2 = c := by
  unfold arena_alloc
  split
  · intro
    rfl
  · split
    · intro
      rfl
    · split
      · intro h
        exact absurd h (by simp)
      · split
        · intro
          rfl
        · intro h
          exact absurd h (by simp)

theorem arena_alloc_aligned_failure_eq {c : Chain} {i size alignment : Nat}
    {memOk : Bool} {base : Nat} :
    (arena_alloc_aligned c i size alignment memOk base).1 = none →
    (arena_alloc_aligned c i size alignment memOk base).2 = c := by
  unfold arena_alloc_aligned
  split
  · intro
    rfl
  · split
    · intro
      rfl
    · split
      · intro
        rfl
      · split
        · intro h
          exact absurd h (by simp)
        · split
          · intro
            rfl
          · intro h
            exact absurd h (by simp)

theorem arena_realloc_failure_eq {c : Chain} {i : Nat} {ptr : Option View}
    {old_size new_size : Nat} {memOk : Bool} {base : Nat} :
    (arena_realloc c i ptr old_size new_size memOk base).1 = none →
    (arena_realloc c i ptr old_size new_size memOk base).2.1 = c := by
  unfold arena_realloc reallocByCopy
  split
  · exact arena_alloc_failure_eq
  · split
    · intro
      rfl
    · split
      · intro
        rfl
      · split
        · split
          · intro h
            exact absurd h (by simp)
          · exact arena_alloc_failure_eq
        · exact arena_alloc_failure_eq

theorem arena_resize_failure_eq {c : Chain} {i new_size : Nat} {memOk : Bool}
    {base : Nat} :
    (arena_resize c i new_size memOk base).1 = false →
    (arena_resize c i new_size memOk base).2 = c := by
  unfold arena_resize
  split
  · intro
    rfl
  · split
    · intro
      rfl
    · split
      · intro
        rfl
      · split
        · intro
          rfl
        · intro h
          exact absurd h (by simp)

/-- C7 (confirmed): every failing call leaves the chain exactly as it
was.  `Arena_create` fails (returning nothing, never a partial object)
on a zero size or a failed reservation; and whenever `arena_alloc`,
`arena_alloc_aligned`, `arena_realloc` or `arena_resize` reports failure
— zero size, invalid alignment, a request below the cursor, or a failed
reservation during growth or resize — the resulting chain is the input
chain, unchanged in every chunk and in structure. -/
theorem C7_failure_preserves_state :
    (∀ (memOk : Bool) (base : Nat), Arena_create 0 memOk base = none) ∧
    (∀ (size base : Nat), Arena_create size false base = none) ∧
    (∀ (c : Chain) (i size : Nat) (memOk : Bool) (base : Nat),
      (arena_alloc c i size memOk base).1 = none →
      (arena_alloc c i size memOk base).2 = c) ∧
    (∀ (c : Chain) (i size alignment : Nat) (memOk : Bool) (base : Nat),
      (arena_alloc_aligned c i size alignment memOk base).1 = none →
      (arena_alloc_aligned c i size alignment memOk base).2 = c) ∧
    (∀ (c : Chain) (i : Nat) (ptr : Option View) (old_size new_size : Nat)
        (memOk : Bool) (base : Nat),
      (arena_realloc c i ptr old_size new_size memOk base).1 = none →
      (arena_realloc c i ptr old_size new_size memOk base).2.1 = c) ∧
    (∀ (c : Chain) (i new_size : Nat) (memOk : Bool) (base : Nat),
      (arena_resize c i new_size memOk base).1 = false →
      (arena_resize c i new_size memOk base).2 = c) :=
  ⟨fun memOk base => by unfold Arena_create; simp,
   fun size base => by unfold Arena_create; split <;> simp,
   fun _ _ _ _ _ => arena_alloc_failure_eq,
   fun _ _ _ _ _ _ => arena_alloc_aligned_failure_eq,
   fun _ _ _ _ _ _ _ => arena_realloc_failure_eq,
   fun _ _ _ _ _ => arena_resize_failure_eq⟩

/-- C7 (witness): the failure theorem applied to concrete failing calls:
an allocation whose growth reservation fails, a zero-size allocation, an
aligned allocation with non-power-of-two alignment 3, a shrinking
reallocation to zero bytes, and a resize to zero. -/
theorem C7_witness :
    (arena_alloc [mkChunk 0 4] 0 9 false 1).2 = [mkChunk 0 4] ∧
    (arena_alloc [mkChunk 0 4] 0 0 true 1).2 = [mkChunk 0 4] ∧
    (arena_alloc_aligned [mkChunk 0 4] 0 8 3 true 1).2 = [mkChunk 0 4] ∧
    (arena_realloc [mkChunk 0 4] 0 (some ⟨0, 0⟩) 2 0 true 1).2.1 = [mkChunk 0 4] ∧
    (arena_resize [mkChunk 0 4] 0 0 true 1).2 = [mkChunk 0 4] :=
  ⟨C7_failure_preserves_state.2.2.1 [mkChunk 0 4] 0 9 false 1 (by decide),
   C7_failure_preserves_state.2.2.1 [mkChunk 0 4] 0 0 true 1 (by decide),
   C7_failure_preserves_state.2.2.2.1 [mkChunk 0 4] 0 8 3 true 1 (by decide),
   C7_failure_preserves_state.2.2.2.2.1 [mkChunk 0 4] 0 (some ⟨0, 0⟩) 2 0 true 1 (by decide),
   C7_failure_preserves_state.2.2.2.2.2 [mkChunk 0 4] 0 0 true 1 (by decide)⟩

/-- C8 (confirmed): the in-place fast path of `arena_realloc`.  When
`new_size > 0`, the view ends exactly at the handle chunk's pre-call
cursor (its start is `cursor - old_size`, so the subtraction does not
underflow), and `cursor - old_size + new_size ≤ capacity`, the call
returns the very same view, sets the chunk's cursor in place to
`cursor - old_size + new_size` (updating only `peak_usage` besides,
leaving every other chunk untouched), and copies zero bytes. -/
theorem C8_realloc_fast_path (ch : Chunk) (rest : List Chunk) (old_size new_size : Nat)
    (memOk : Bool) (base : Nat) (hnz : new_size ≠ 0) (hold : old_size ≤ ch.offset)
    (hfit : ch.offset - old_size + new_size ≤ ch.size) :
    arena_realloc (ch :: rest) 0 (some ⟨0, ch.offset - old_size⟩) old_size new_size
        memOk base =
      (some ⟨0, ch.offset - old_size⟩,
       { ch with
         offset := ch.offset - old_size + new_size
         peak_usage :=
           if ch.offset - old_size + new_size > ch.peak_usage then
             ch.offset - old_size + new_size
           else ch.peak_usage } :: rest,
       0) :=
  realloc_fast_path_eq ch rest old_size new_size memOk base hnz hold hfit

/-- C8 (witness): the fast-path theorem applied to a chunk of capacity
100 with cursor 50, shrinking the most recent 50-byte allocation (the
view at offset 0) to 10 bytes in place. -/
theorem C8_witness :
    arena_realloc [⟨0, 100, 50, 50, 1, 50⟩] 0 (some ⟨0, 50 - 50⟩) 50 10 true 9 =
      (some ⟨0, 50 - 50⟩, [⟨0, 100, 10, 50, 1, 50⟩], 0) := by
  have h := C8_realloc_fast_path ⟨0, 100, 50, 50, 1, 50⟩ [] 50 10 true 9
    (by decide) (by decide) (by decide)
  simpa using h

/-- C9 (counterexample): on the reachable arena create(100);
allocate(50), reallocating the just-returned 50-byte view down to 10
bytes takes the in-place fast path and moves the cursor from 50 down to
10 — a decrease caused by `reallocate`, which is not a reset,
reset_to_mark or resize call.  This refutes "the chunk's cursor never
decreases across any sequence of operations that contains no reset,
reset_to_mark, or resize call (in particular reallocate never decreases
it)". -/
theorem C9_counterexample :
    Reach (arena_alloc [mkChunk 0 100] 0 50 true 0).2 ∧
    offAt (arena_alloc [mkChunk 0 100] 0 50 true 0).2 0 = 50 ∧
    (arena_realloc (arena_alloc [mkChunk 0 100] 0 50 true 0).2 0 (some ⟨0, 0⟩)
        50 10 true 0).2.1 = [⟨0, 100, 10, 50, 1, 50⟩] ∧
    offAt (arena_realloc (arena_alloc [mkChunk 0 100] 0 50 true 0).2 0 (some ⟨0, 0⟩)
        50 10 true 0).2.1 0 = 10 ∧
    (10 : Nat) < 50 :=
  ⟨Reach.alloc_step _ 50 true 0 (Reach.created 100 true 0 _ rfl),
   by decide, by decide, by decide, by decide⟩

/-- C9 (amended): across any sequence of allocation calls (plain or
aligned) containing no reset, reset_to_mark, resize or reallocate, every
chunk's cursor is non-decreasing; two successful bump allocations served
from the same chunk return non-overlapping regions (the later region
starts at or after the end of the earlier one); and `reallocate`'s
in-place fast path sets the cursor to `cursor - old_size + new_size`,
which is a decrease exactly when `new_size < old_size`. -/
theorem C9_monotonic_nonoverlap :
    (∀ (c c' : Chain), AllocSteps c c' → ∀ j, offAt c j ≤ offAt c' j) ∧
    (∀ (c1 c2 cmid : Chain) (s1 s2 : Nat) (m1 m2 : Bool) (b1 b2 : Nat) (v1 v2 : View),
      arena_alloc c1 0 s1 m1 b1 = (some v1, c2) →
      AllocSteps c2 cmid →
      (arena_alloc cmid 0 s2 m2 b2).1 = some v2 →
      v1.chunk = v2.chunk →
      v1.off + s1 ≤ v2.off) ∧
    (∀ (ch : Chunk) (rest : List Chunk) (old_size new_size : Nat)
        (memOk : Bool) (base : Nat),
      new_size ≠ 0 → old_size ≤ ch.offset →
      ch.offset - old_size + new_size ≤ ch.size →
      offAt (arena_realloc (ch :: rest) 0 (some ⟨0, ch.offset - old_size⟩)
          old_size new_size memOk base).2.1 0 = ch.offset - old_size + new_size) := by
  refine ⟨?_, ?_, ?_⟩
  · intro c c' h j
    exact allocSteps_offAt_le h j
  · intro c1 c2 cmid s1 s2 m1 m2 b1 b2 v1 v2 h1 hsteps h2 hchunk
    have h1a : (arena_alloc c1 0 s1 m1 b1).1 = some v1 := by rw [h1]
    have h1b : (arena_alloc c1 0 s1 m1 b1).2 = c2 := by rw [h1]
    obtain ⟨hserved, hlt⟩ := arena_alloc_success_served h1a
    rw [h1b] at hserved hlt
    have hmono := allocSteps_offAt_le hsteps v1.chunk
    have hlen := allocSteps_length_le hsteps
    rcases arena_alloc_success_shape h2 with ⟨hz, hoff⟩ | hgrow
    · have hle : v1.off + s1 ≤ offAt cmid v1.chunk := le_trans hserved hmono
      rw [hchunk, hz] at hle
      omega
    · rw [hchunk, hgrow] at hlt
      omega
  · intro ch rest old_size new_size memOk base hnz hold hfit
    rw [realloc_fast_path_eq ch rest old_size new_size memOk base hnz hold hfit]
    rw [offAt_head]

/-- C9 (witness): the amended theorem applied to concrete runs — the
trivial empty step sequence, two consecutive allocations of 3 then 4
bytes from the same one-chunk arena (whose regions `[0,3)` and `[3,7)`
are disjoint), and the in-place shrink of C8's scenario. -/
theorem C9_witness :
    offAt [mkChunk 0 10] 0 ≤ offAt [mkChunk 0 10] 0 ∧
    (0 : Nat) + 3 ≤ 3 ∧
    offAt (arena_realloc [⟨0, 100, 50, 50, 1, 50⟩] 0 (some ⟨0, 50 - 50⟩)
        50 10 true 0).2.1 0 = 50 - 50 + 10 :=
  ⟨C9_monotonic_nonoverlap.1 [mkChunk 0 10] [mkChunk 0 10] Relation.ReflTransGen.refl 0,
   C9_monotonic_nonoverlap.2.1 [mkChunk 0 10] [⟨0, 10, 3, 3, 1, 3⟩] [⟨0, 10, 3, 3, 1, 3⟩]
     3 4 true true 0 0 ⟨0, 0⟩ ⟨0, 3⟩ (by decide) Relation.ReflTransGen.refl
     (by decide) rfl,
   C9_monotonic_nonoverlap.2.2 ⟨0, 100, 50, 50, 1, 50⟩ [] 50 10 true 0
     (by decide) (by decide) (by decide)⟩

/-- C10 (confirmed): every public operation called on a null/absent
arena handle is safe and mutates nothing: allocate, allocate_aligned and
reallocate return null, get_mark returns 0, resize returns false, and
reset, reset_to_mark, destroy and print_stats are no-ops (the handle
stays absent, nothing is reported). -/
theorem C10_null_handle_safe (size alignment old_size new_size mark n : Nat)
    (memOk : Bool) (base : Nat) (ptr : Option View) :
    arena_alloc_h none size memOk base = (none, none) ∧
    arena_alloc_aligned_h none size alignment memOk base = (none, none) ∧
    arena_realloc_h none ptr old_size new_size memOk base = (none, none, 0) ∧
    arena_get_mark_h none = 0 ∧
    arena_resize_h none n memOk base = (false, none) ∧
    arena_reset_h none = none ∧
    arena_reset_to_mark_h none mark = none ∧
    arena_destroy_h none = none ∧
    arena_print_stats_h none = none :=
  ⟨rfl, rfl, rfl, rfl, rfl, rfl, rfl, rfl, rfl⟩

end ArenaModel
